import Mathlib

/-!
Shallow embedding of the OpenTTD sprite cache and load/resize pipeline
(src/spritecache.cpp and src/spriteloader/makeindexed.cpp), together with
theorems settling the specification claims about it.

Machine integers are modelled as Nat (sizes, ids, LRU stamps; all arithmetic
stays far below the 32/64-bit bounds except where noted), nullable pointers as
Option, byte buffers as List Nat, and the float zoom scales as ℚ (every scale
used by the code is a power of two, hence exact in float).
-/

/-- Sprite types, from spritecache.h (enum class SpriteType). -/
inductive SpriteType
  | Normal
  | MapGen
  | Font
  | Recolour
  | Invalid
deriving DecidableEq, Repr

instance : Inhabited SpriteType := ⟨SpriteType.Normal⟩

/-- One entry of the sprite cache (struct SpriteCache).
The SpriteFile pointer is modelled as an Option Nat (a handle; none = null),
the byte buffers as lists of bytes. -/
structure SpriteCache where
  file : Option Nat := none
  file_pos : Nat := 0
  id : Nat := 0
  type : SpriteType := SpriteType.Normal
  control_flags : Nat := 0
  data : List Nat := []
  fractional_data : List Nat := []
  lru : Nat := 0
  warned : Bool := false
deriving DecidableEq, Repr

instance : Inhabited SpriteCache := ⟨{}⟩

/-- The file-scope mutable state of spritecache.cpp: the dense entry table
(_spritecache), the byte-usage counter (_spritecache_bytes_used) and the
global LRU counter (_sprite_lru_counter). -/
structure CacheState where
  entries : List SpriteCache
  bytesUsed : Nat
  lruCounter : Nat
deriving DecidableEq, Repr

/-- Modelled from the spec: the reserved fallback sprite id (the big red
question mark, SPR_IMG_QUERY from table/sprites.h, which is not part of the
sources under review). Its concrete value is irrelevant to every claim. -/
def SPR_IMG_QUERY : Nat := 5627

/-- Modelled from the spec: the reserved dark-blue recolour fallback id
(PALETTE_TO_DARK_BLUE from table/sprites.h, not part of the sources under
review). Its concrete value is irrelevant to every claim. -/
def PALETTE_TO_DARK_BLUE : Nat := 795

/-- SpriteExists from spritecache.cpp: an id exists iff it is inside the
allocated table and (special case id 0, whose position is also 0) has a
nonzero file position or non-null file pointer. -/
def SpriteExists (entries : List SpriteCache) (id : Nat) : Bool :=
  if id ≥ entries.length then false
  else if id = 0 then true
  else !((entries.getD id default).file_pos = 0 && (entries.getD id default).file = none)

/-! ## Eviction (DeleteEntriesFromSpriteCache / IncreaseSpriteLRU) -/

/-- Element of the candidate max-heap in DeleteEntriesFromSpriteCache
(struct SpriteInfo); operator< compares only the lru field. -/
structure SpriteInfo where
  lru : Nat
  id : Nat
  size : Nat
deriving DecidableEq, Repr

/-- The front (maximum, by operator< on lru) of the candidate heap.
std::push_heap/std::pop_heap maintain a max-heap whose front is a maximal
element; order among equal lru keys is unspecified in C++, this model picks
the earliest pushed maximum (no claim below depends on the tie order). -/
def heapFront : List SpriteInfo → Option SpriteInfo
  | [] => none
  | i :: rest => some (rest.foldl (fun acc x => if acc.lru < x.lru then x else acc) i)

/-- push lambda in DeleteEntriesFromSpriteCache: add a candidate to the heap. -/
def heapPush (cand : List SpriteInfo) (info : SpriteInfo) : List SpriteInfo :=
  info :: cand

/-- Remove the first occurrence of an element from the heap list. -/
def heapRemove (f : SpriteInfo) : List SpriteInfo → List SpriteInfo
  | [] => []
  | x :: rest => if x = f then rest else x :: heapRemove f rest

/-- pop lambda in DeleteEntriesFromSpriteCache: remove the heap front
(a maximal-lru element). -/
def heapPop (cand : List SpriteInfo) : List SpriteInfo :=
  match heapFront cand with
  | none => []
  | some f => heapRemove f cand

/-- Eligibility test shared by both scan passes:
sc->type != SpriteType::Recolour && !sc->data.empty(). -/
def evictable (sc : SpriteCache) : Bool :=
  sc.type ≠ SpriteType.Recolour && !sc.data.isEmpty

/-- The id-indexed view of the entry table that the eviction loops scan
(the loop variable i runs from 0 over _spritecache). -/
def enumFrom (i : Nat) : List SpriteCache → List (Nat × SpriteCache)
  | [] => []
  | e :: rest => (i, e) :: enumFrom (i + 1) rest

/-- First scan pass of DeleteEntriesFromSpriteCache: accumulate entries until
their total size meets to_remove. Returns the heap, candidate_bytes, and the
remaining (index, entry) list at which the second pass resumes. The break on
reaching to_remove leaves the loop index unincremented, so the entry that
satisfied the request is still at the head of the returned remainder, exactly
as in the source. -/
def evictPassOne (toRemove : Nat) :
    List (Nat × SpriteCache) → List SpriteInfo → Nat →
    List SpriteInfo × Nat × List (Nat × SpriteCache)
  | [], cand, bytes => (cand, bytes, [])
  | (i, sc) :: rest, cand, bytes =>
    if bytes ≥ toRemove then (cand, bytes, (i, sc) :: rest)
    else if evictable sc then
      let cand := heapPush cand ⟨sc.lru, i, sc.data.length⟩
      let bytes := bytes + sc.data.length
      if bytes ≥ toRemove then (cand, bytes, (i, sc) :: rest)
      else evictPassOne toRemove rest cand bytes
    else evictPassOne toRemove rest cand bytes

/-- The inner while loop of the second pass: pop the worst (highest-lru)
candidate while the remaining candidates still cover to_remove without it.
candidate_bytes is a size_t; the subtraction never underflows because the
front is always a member of the heap, whose sizes sum to candidate_bytes.
The fuel is the heap size, which bounds the pop count. -/
def evictPopLoop (toRemove : Nat) :
    Nat → List SpriteInfo → Nat → List SpriteInfo × Nat
  | 0, cand, bytes => (cand, bytes)
  | fuel + 1, cand, bytes =>
    match heapFront cand with
    | none => (cand, bytes)
    | some f =>
      if bytes - f.size ≥ toRemove then
        evictPopLoop toRemove fuel (heapPop cand) (bytes - f.size)
      else (cand, bytes)

/-- Second scan pass of DeleteEntriesFromSpriteCache: continue over the rest
of the table, admitting only entries whose lru is at or below the heap front,
popping the heap while it stays sufficient. (candidates.front() on an empty
heap is undefined behaviour in the source; the model skips the entry, and no
claim is settled on a state that reaches that situation.) -/
def evictPassTwo (toRemove : Nat) :
    List (Nat × SpriteCache) → List SpriteInfo → Nat → List SpriteInfo × Nat
  | [], cand, bytes => (cand, bytes)
  | (i, sc) :: rest, cand, bytes =>
    match heapFront cand with
    | none => evictPassTwo toRemove rest cand bytes
    | some f =>
      if evictable sc && sc.lru ≤ f.lru then
        let cand := heapPush cand ⟨sc.lru, i, sc.data.length⟩
        let bytes := bytes + sc.data.length
        let (cand, bytes) := evictPopLoop toRemove cand.length cand bytes
        evictPassTwo toRemove rest cand bytes
      else evictPassTwo toRemove rest cand bytes

/-- SpriteCache::ClearSpriteData(): subtract the buffer size from the global
byte counter and drop the buffer. -/
def clearSpriteDataAt (st : CacheState) (id : Nat) : CacheState :=
  match st.entries.get? id with
  | none => st
  | some sc =>
    { st with
      entries := st.entries.set id { sc with data := [] },
      bytesUsed := st.bytesUsed - sc.data.length }

/-- DeleteEntriesFromSpriteCache: select candidates with the two scan passes,
then clear the sprite data of every candidate. -/
def DeleteEntriesFromSpriteCache (st : CacheState) (toRemove : Nat) : CacheState :=
  let (cand, bytes, rest) := evictPassOne toRemove (enumFrom 0 st.entries) [] 0
  let (cand, _) := evictPassTwo toRemove rest cand bytes
  cand.foldl (fun st info => clearSpriteDataAt st info.id) st

/-- The byte budget computed by IncreaseSpriteLRU:
(bpp > 0 ? _sprite_cache_size * bpp / 8 : 1) * 1024 * 1024. -/
def targetSize (bpp cacheSizeMB : Nat) : Nat :=
  (if bpp > 0 then cacheSizeMB * bpp / 8 else 1) * 1024 * 1024

/-- The per-entry LRU rebase applied by IncreaseSpriteLRU once the global
counter reaches 0xC0000000: stamps above 0x80000000 are reduced by it,
stamps at or below it become 0. -/
def rebaseLru (lru : Nat) : Nat :=
  if lru > 0x80000000 then lru - 0x80000000 else 0

/-- IncreaseSpriteLRU from spritecache.cpp: evict down past the byte budget
(plus a 512KiB margin) when usage exceeds it, then rebase all live LRU stamps
when the global counter has reached 0xC0000000. bpp is the current blitter
screen depth, cacheSizeMB the configured _sprite_cache_size. -/
def IncreaseSpriteLRU (bpp cacheSizeMB : Nat) (st : CacheState) : CacheState :=
  let target := targetSize bpp cacheSizeMB
  let st := if st.bytesUsed > target then
      DeleteEntriesFromSpriteCache st (st.bytesUsed - target + 512 * 1024)
    else st
  if st.lruCounter ≥ 0xC0000000 then
    { st with
      entries := st.entries.map (fun sc =>
        if sc.data.isEmpty then sc else { sc with lru := rebaseLru sc.lru }),
      lruCounter := st.lruCounter - 0x80000000 }
  else st

/-! ## Concrete cache states used by the eviction claims -/

/-- A two-entry cache: entry 0 of 60 bytes (lru 30), entry 1 of 50 bytes
(lru 5); 110 bytes in use in total. -/
def c1State : CacheState :=
  { entries :=
      [ { file := some 1, file_pos := 10, type := SpriteType.Normal,
          data := List.replicate 60 7, lru := 30 },
        { file := some 1, file_pos := 20, type := SpriteType.Normal,
          data := List.replicate 50 8, lru := 5 } ],
    bytesUsed := 110,
    lruCounter := 0 }

/-- A concrete byte buffer of the given size (contents irrelevant). -/
def sampleBytes (n : Nat) : List Nat := List.replicate n 0

theorem sampleBytes_length (n : Nat) : (sampleBytes n).length = n :=
  List.length_replicate n 0

theorem sampleBytes_isEmpty_succ (n : Nat) : (sampleBytes (n + 1)).isEmpty = false := by
  simp [sampleBytes, List.replicate_succ]

attribute [irreducible] sampleBytes

/-- Entries of a three-entry cache totalling 1048577 bytes, one byte over the
1MiB budget of an 8bpp blitter with a 1MB configured cache. -/
def c3e0 : SpriteCache :=
  { file := some 1, file_pos := 10, type := SpriteType.Normal,
    data := sampleBytes 224289, lru := 30 }

def c3e1 : SpriteCache :=
  { file := some 1, file_pos := 20, type := SpriteType.Normal,
    data := sampleBytes 300000, lru := 5 }

def c3e2 : SpriteCache :=
  { file := some 1, file_pos := 30, type := SpriteType.Normal,
    data := sampleBytes 524288, lru := 100 }

def c3State : CacheState :=
  { entries := [c3e0, c3e1, c3e2], bytesUsed := 1048577, lruCounter := 0 }

/-- A one-entry cache holding a Recolour sprite next to a Normal one, with a
zero-byte budget configuration so that eviction triggers. -/
def c2wEntry : SpriteCache :=
  { file := some 1, file_pos := 5, type := SpriteType.Recolour, data := [9], lru := 1 }

def c2wState : CacheState :=
  { entries :=
      [ c2wEntry,
        { file := some 1, file_pos := 6, type := SpriteType.Normal,
          data := [7, 7], lru := 2 } ],
    bytesUsed := 3,
    lruCounter := 0 }

/-- Two live entries with stamps above the rebase pivot, counter at the
overflow threshold, within budget. -/
def c4wState : CacheState :=
  { entries :=
      [ { file := some 1, file_pos := 10, type := SpriteType.Normal,
          data := [1], lru := 0x80000005 },
        { file := some 1, file_pos := 20, type := SpriteType.Normal,
          data := [2], lru := 0x80000007 } ],
    bytesUsed := 2,
    lruCounter := 0xC0000000 }

/-- Two live entries with nonzero LRU stamps 1 and 2, both at or below the
rebase pivot, with the global counter at the overflow threshold. -/
def c4State : CacheState :=
  { entries :=
      [ { file := some 1, file_pos := 10, type := SpriteType.Normal,
          data := [1], lru := 1 },
        { file := some 1, file_pos := 20, type := SpriteType.Normal,
          data := [2], lru := 2 } ],
    bytesUsed := 2,
    lruCounter := 0xC0000000 }

/-! ## Indexed-colour transform (spriteloader/makeindexed.cpp) -/

/-- GB from core/bitmath_func.hpp: extract n bits starting at bit s. -/
def GB (x s n : Nat) : Nat := (x >>> s) % 2 ^ n

/-- An RGBA colour (struct Colour); channels are bytes, kept as Nat. -/
structure Colour where
  r : Nat
  g : Nat
  b : Nat
  a : Nat
deriving DecidableEq, Repr

/-- AdjustBrightness from makeindexed.cpp (copy of
Blitter_32bppBase::ReallyAdjustBrightness): multiply the packed channels by
the brightness, extract 9-bit channels, and redistribute overbright energy.
The 64-bit multiply cannot overflow (combined < 2^48, brightness < 2^8). -/
def AdjustBrightness (colour : Colour) (brightness : Nat) : Colour :=
  let combined := ((colour.r <<< 32) ||| (colour.g <<< 16) ||| colour.b) * brightness
  let r := GB combined 39 9
  let g := GB combined 23 9
  let b := GB combined 7 9
  if combined &&& 0x800080008000 = 0 then
    ⟨r, g, b, colour.a⟩
  else
    let ob := ((if r > 255 then r - 255 else 0) + (if g > 255 then g - 255 else 0)
      + (if b > 255 then b - 255 else 0)) / 2
    ⟨if r ≥ 255 then 255 else min (r + ob * (255 - r) / 256) 255,
     if g ≥ 255 then 255 else min (g + ob * (255 - g) / 256) 255,
     if b ≥ 255 then 255 else min (b + ob * (255 - b) / 256) 255,
     colour.a⟩

/-- One pixel of the intermediate sprite representation
(SpriteLoader::CommonPixel): red, green, blue, alpha and palette mask. -/
structure CommonPixel where
  r : Nat
  g : Nat
  b : Nat
  a : Nat
  m : Nat
deriving DecidableEq, Repr

instance : Inhabited CommonPixel := ⟨⟨0, 0, 0, 0, 0⟩⟩

/-- Squared RGB distance between a palette colour and an RGB triple. -/
def rgbDistSq (c : Colour) (r g b : Nat) : Int :=
  ((c.r : Int) - r) ^ 2 + ((c.g : Int) - g) ^ 2 + ((c.b : Int) - b) ^ 2

/-- Modelled from the spec: GetNearestColourIndex (palette_func.h, not under
src/) matches an RGB triple to the nearest palette colour by RGB distance;
modelled as the argmin of squared RGB distance over palette indices 1..255
(index 0 is the transparent slot). -/
def GetNearestColourIndex (pal : Nat → Colour) (r g b : Nat) : Nat :=
  (List.range 255).foldl (fun best i =>
    if rgbDistSq (pal (i + 1)) r g b < rgbDistSq (pal best) r g b then i + 1 else best) 1

/-- The per-pixel body of Convert32bppTo8bpp from makeindexed.cpp. The
palette (_cur_palette) and the two nearest-colour helpers
(GetNearestColourIndex / GetNearestColourReshadeIndex, both outside src/) are
parameters. -/
def convertPixel (pal : Nat → Colour) (nearest : Nat → Nat → Nat → Nat)
    (nearestReshade : Nat → Nat) (p : CommonPixel) : CommonPixel :=
  if p.m ≠ 0 then
    let brightness := max p.r (max p.g p.b)
    if brightness = 0 ∨ brightness = 128 then p
    else
      let c := AdjustBrightness (pal p.m) brightness
      if 0xC6 ≤ p.m ∧ p.m < 0xCE then
        { p with m := nearestReshade ((c.r + c.g + c.b) / 3) }
      else
        { p with m := nearest c.r c.g c.b }
  else if p.a < 128 then { p with m := 0 }
  else { p with m := nearest p.r p.g p.b }

/-- Convert32bppTo8bpp: convert a decoded 32bpp pixel buffer in place to
8-bit palette indices, pixel by pixel. -/
def Convert32bppTo8bpp (pal : Nat → Colour) (nearest : Nat → Nat → Nat → Nat)
    (nearestReshade : Nat → Nat) (data : List CommonPixel) : List CommonPixel :=
  data.map (convertPixel pal nearest nearestReshade)

/-- A concrete palette and reshade table for the closed instances. -/
def cPal : Nat → Colour := fun i => ⟨i % 256, (i * 7) % 256, (i * 13) % 256, 255⟩

def cReshade : Nat → Nat := fun b => b % 256

/-! ## GetRawSprite dispatch (spritecache.cpp) -/

/-- What a GetRawSprite call returns, at the level of this model: a pointer
into the cache entry's own (fractional) buffer, bytes produced through the
caller's allocator, a dereference of a null allocator (undefined behaviour in
the C++), or a fatal UserError / NOT_REACHED. -/
inductive SpriteResult
  | cachedBytes (id : Nat)
  | cachedFractionalBytes (id : Nat)
  | bypassBytes (id : Nat)
  | nullAllocatorDeref
  | fatal
deriving DecidableEq, Repr

/-- GetRawSprite together with HandleInvalidSpriteRequest from
spritecache.cpp, modelled over the cache state. The ReadSprite pipeline is
abstracted by the load function, which yields the bytes the pipeline stores
for a given sprite, type and optional fractional scale; the allocator and
encoder pointer arguments are modelled by whether they are non-null, which is
all the dispatch inspects. The fuel bounds the re-entrant fallback recursion
(depth two suffices in the source); exhausted fuel is reported as fatal. -/
def GetRawSprite (load : Nat → SpriteType → Option ℚ → List Nat) :
    Nat → CacheState → Nat → SpriteType → Option ℚ → Bool → Bool →
    SpriteResult × CacheState
  | 0, st, _, _, _, _, _ => (.fatal, st)
  | fuel + 1, st, sprite, type, scale, hasAllocator, hasEncoder =>
    let sprite := if SpriteExists st.entries sprite then sprite else SPR_IMG_QUERY
    match st.entries.get? sprite with
    | none => (.fatal, st)
    | some sc =>
      if sc.type ≠ type then
        -- HandleInvalidSpriteRequest
        if type = SpriteType.Font ∧ sc.type = SpriteType.Normal then
          let entries := if sc.data.isEmpty then
              st.entries.set sprite { sc with type := SpriteType.Font }
            else st.entries
          GetRawSprite load fuel { st with entries := entries } sprite
            (if sc.data.isEmpty then SpriteType.Font else SpriteType.Normal)
            none hasAllocator false
        else
          let st := { st with
            entries := st.entries.set sprite { sc with warned := true } }
          match type with
          | SpriteType.Normal =>
            if sprite = SPR_IMG_QUERY then (.fatal, st)
            else GetRawSprite load fuel st SPR_IMG_QUERY SpriteType.Normal none
              hasAllocator false
          | SpriteType.Font =>
            GetRawSprite load fuel st SPR_IMG_QUERY SpriteType.Normal none
              hasAllocator false
          | SpriteType.Recolour =>
            if sprite = PALETTE_TO_DARK_BLUE then (.fatal, st)
            else GetRawSprite load fuel st PALETTE_TO_DARK_BLUE
              SpriteType.Recolour none hasAllocator false
          | _ => (.fatal, st)
      else if hasAllocator = false ∧ hasEncoder = false then
        -- load into/from the sprite cache, stamping a fresh LRU counter
        let counter := st.lruCounter + 1
        let sc := { sc with lru := counter }
        let st := { st with entries := st.entries.set sprite sc,
                            lruCounter := counter }
        match scale with
        | some _ =>
          if sc.fractional_data.isEmpty then
            let bytes := load sprite type scale
            (.cachedFractionalBytes sprite,
              { st with
                entries := st.entries.set sprite
                  { sc with fractional_data := bytes },
                bytesUsed := st.bytesUsed + bytes.length })
          else (.cachedFractionalBytes sprite, st)
        | none =>
          if sc.data.isEmpty then
            let bytes := load sprite type scale
            (.cachedBytes sprite,
              { st with
                entries := st.entries.set sprite { sc with data := bytes },
                bytesUsed := st.bytesUsed + bytes.length })
          else (.cachedBytes sprite, st)
      else
        -- bypass: ReadSprite(sc, sprite, type, scale, *allocator, encoder)
        if hasAllocator = false then (.nullAllocatorDeref, st)
        else (.bypassBytes sprite, st)

/-- A trivial load function and a two-entry state for the closed instances:
entry 1 is a Normal sprite resident with bytes [7]. -/
def cLoad : Nat → SpriteType → Option ℚ → List Nat := fun _ _ _ => [1, 2, 3]

def c7State : CacheState :=
  { entries :=
      [ { file := some 1, file_pos := 1, type := SpriteType.Normal,
          data := [4], lru := 0 },
        { file := some 1, file_pos := 2, type := SpriteType.Normal,
          data := [7], lru := 0 } ],
    bytesUsed := 2,
    lruCounter := 0 }

/-- Like c7State but with entry 1 not resident (empty data buffer). -/
def c7StateEmpty : CacheState :=
  { entries :=
      [ { file := some 1, file_pos := 1, type := SpriteType.Normal,
          data := [4], lru := 0 },
        { file := some 1, file_pos := 2, type := SpriteType.Normal,
          data := [], lru := 0 } ],
    bytesUsed := 1,
    lruCounter := 0 }

/-! ## Zoom synthesis (ResizeSpriteIn/Out, PadSprites, ResizeSprites) -/

/-- SpriteLoader::Sprite: one zoom level's pixel buffer with dimensions and
hot-spot offsets. Dimensions are Nat (uint16-ranged, checked against 65535 by
the resize code), offsets are Int. -/
structure SLSprite where
  width : Nat
  height : Nat
  x_offs : Int
  y_offs : Int
  data : List CommonPixel
deriving DecidableEq, Repr

instance : Inhabited SLSprite := ⟨⟨0, 0, 0, 0, []⟩⟩

/-- The transient per-load sprite collection
(std::map<float, SpriteLoader::Sprite, std::greater<float>>): an association
list from zoom scale fraction to buffer, kept sorted by descending scale so
that the head is the most detailed available level (map::begin). Scales are
ℚ: every scale used by the code is a power of two, exact in float. -/
def SpriteColl : Type := List (ℚ × SLSprite)

instance : DecidableEq SpriteColl := by unfold SpriteColl; infer_instance

/-- map::find. -/
def collFind : SpriteColl → ℚ → Option SLSprite
  | [], _ => none
  | (k0, v0) :: rest, k => if k = k0 then some v0 else collFind rest k

/-- map::operator[] assignment: replace the level at the key or insert it,
keeping the descending order. -/
def collSet : SpriteColl → ℚ → SLSprite → SpriteColl
  | [], k, v => [(k, v)]
  | (k0, v0) :: rest, k, v =>
    if k = k0 then (k, v) :: rest
    else if k > k0 then (k, v) :: (k0, v0) :: rest
    else (k0, v0) :: collSet rest k v

/-- map::erase by key. -/
def collErase (c : SpriteColl) (k : ℚ) : SpriteColl :=
  List.filter (fun p => decide (p.1 ≠ k)) c

/-- static_cast<int> of the float sampling position: truncation toward zero
(Int.tdiv truncates toward zero). -/
def ratTrunc (q : ℚ) : Int := Int.tdiv q.num q.den

/-- The nearest-neighbour sampling loop of ResizeSpriteIn, with the source
pointer arithmetic expressed as indices into the source buffer: row y of the
target reads source row trunc((y + target.y_offs) * src / tgt - source.y_offs),
clamped one row back when past the end, and column
trunc((x + target.x_offs) * src / tgt - source.x_offs), clamped one pixel
back when past the row end. A negative index is an out-of-bounds read in the
C++ (undefined behaviour); the model yields the default pixel there. -/
def resizeInData (source : SLSprite) (src tgt : ℚ) (tw th : Nat)
    (xo yo : Int) : List CommonPixel :=
  (List.range th).flatMap fun y =>
    let row0 : Int := ratTrunc (((y : ℚ) + (yo : ℚ)) * src / tgt - (source.y_offs : ℚ))
      * source.width
    let row : Int := if row0 ≥ (source.height : Int) * (source.width : Int)
      then row0 - source.width else row0
    (List.range tw).map fun x =>
      let col : Int := ratTrunc (((x : ℚ) + (xo : ℚ)) * src / tgt - (source.x_offs : ℚ))
      let px : Int := if col ≥ (source.width : Int) then row + col - 1 else row + col
      if px < 0 then default else source.data.getD px.toNat default

/-- ResizeSpriteIn from spritecache.cpp: synthesize the target scale from the
source scale by nearest-neighbour replication; dimensions beyond UINT16_MAX
are a failure, erasing the target level. operator[] default-constructs the
source level when absent, as std::map does. -/
def ResizeSpriteIn (coll : SpriteColl) (src tgt : ℚ) : Bool × SpriteColl :=
  let source := (collFind coll src).getD default
  let coll := if (collFind coll src).isSome then coll else collSet coll src default
  let width := Int.ceil ((source.width : ℚ) * tgt / src)
  let height := Int.ceil ((source.height : ℚ) * tgt / src)
  if width > 65535 ∨ height > 65535 then
    (false, collErase coll tgt)
  else
    (true, collSet coll tgt
      { width := width.toNat,
        height := height.toNat,
        x_offs := Int.ceil ((source.x_offs : ℚ) * tgt / src),
        y_offs := Int.ceil ((source.y_offs : ℚ) * tgt / src),
        data := resizeInData source src tgt width.toNat height.toNat
          (Int.ceil ((source.x_offs : ℚ) * tgt / src))
          (Int.ceil ((source.y_offs : ℚ) * tgt / src)) })

/-- One output row of ResizeSpriteOut: the source pointer starts at p with
the row end marker at srcLn; each target pixel takes the second pixel of the
horizontal pair when it exists (src + 1 != src_ln) and has nonzero alpha,
else the first, and the pointer advances by two. -/
def resizeOutRow (data : List CommonPixel) : Nat → Nat → Nat → List CommonPixel
  | _, _, 0 => []
  | p, srcLn, n + 1 =>
    (if p + 1 ≠ srcLn ∧ (data.getD (p + 1) default).a ≠ 0
      then data.getD (p + 1) default
      else data.getD p default)
      :: resizeOutRow data (p + 2) srcLn n

/-- The row loop of ResizeSpriteOut: each output row reads the source row
starting at p with src_ln = p + source.width, and the next row starts at
p + 2 * source.width. -/
def resizeOutRows (data : List CommonPixel) (sw tw : Nat) :
    Nat → Nat → List CommonPixel
  | 0, _ => []
  | r + 1, p => resizeOutRow data p (p + sw) tw ++ resizeOutRows data sw tw r (p + 2 * sw)

/-- ResizeSpriteOut from spritecache.cpp: derive the level at the given scale
from the one at twice that scale by 2x2 decimation. -/
def ResizeSpriteOut (coll : SpriteColl) (scale : ℚ) : Bool × SpriteColl :=
  match collFind coll (scale * 2) with
  | none => (false, coll)
  | some source =>
    let tw := (Int.ceil ((source.width : ℚ) * scale / (scale * 2))).toNat
    let th := (Int.ceil ((source.height : ℚ) * scale / (scale * 2))).toNat
    (true, collSet coll scale
      { width := tw,
        height := th,
        x_offs := Int.ceil ((source.x_offs : ℚ) * scale / (scale * 2)),
        y_offs := Int.ceil ((source.y_offs : ℚ) * scale / (scale * 2)),
        data := resizeOutRows source.data source.width tw th 0 })

/-- Modelled from the spec: ScaleFraction (zoom_func.h, not under src/)
projects a pixel quantity at a zoom level's own scale fraction into
normal-zoom units; the spec leaves the exact rounding open, floor is used
here. -/
def ScaleFraction (f : ℚ) (x : Int) : Int := Int.floor ((x : ℚ) / f)

/-- Modelled from the spec: UnScaleFraction (zoom_func.h, not under src/)
projects a normal-zoom pixel quantity into a level's own units; floor
rounding, see ScaleFraction. -/
def UnScaleFraction (f : ℚ) (x : Int) : Int := Int.floor ((x : ℚ) * f)

/-- Modelled from the spec: Align (core/math_func.hpp, not under src/) rounds
up to a multiple of the alignment. -/
def Align (x : Int) (n : Nat) : Int := ((x + n - 1) / n) * n

/-- PadSingleSprite from spritecache.cpp: grow the buffer by transparent
padding on the four sides, failing when a padded dimension exceeds
UINT16_MAX. -/
def PadSingleSprite (s : SLSprite) (padL padT padR padB : Nat) :
    Option SLSprite :=
  let width := s.width + padL + padR
  let height := s.height + padT + padB
  if width > 65535 ∨ height > 65535 then none
  else some
    { width := width,
      height := height,
      x_offs := s.x_offs - padL,
      y_offs := s.y_offs - padT,
      data := (List.range height).flatMap fun y =>
        if y < padT ∨ padB + y ≥ height then List.replicate width default
        else
          List.replicate padL default
            ++ (List.range s.width).map
              (fun x => s.data.getD ((y - padT) * s.width + x) default)
            ++ List.replicate padR default }

/-- PadSprites from spritecache.cpp: compute the common bounding box over all
present levels in normal-zoom units, align it if the encoder requires, and
pad every level that needs it; fails when any PadSingleSprite fails. -/
def PadSprites (coll : SpriteColl) (align : Nat) : Option SpriteColl :=
  let min_xoffs := coll.foldl (fun m p => min m (ScaleFraction p.1 p.2.x_offs))
    2147483647
  let min_yoffs := coll.foldl (fun m p => min m (ScaleFraction p.1 p.2.y_offs))
    2147483647
  let max_width := coll.foldl (fun m p => max m (ScaleFraction p.1
    (p.2.width + p.2.x_offs - UnScaleFraction p.1 min_xoffs))) (-2147483648)
  let max_height := coll.foldl (fun m p => max m (ScaleFraction p.1
    (p.2.height + p.2.y_offs - UnScaleFraction p.1 min_yoffs))) (-2147483648)
  let max_width := if align ≠ 0 then Align max_width align else max_width
  let max_height := if align ≠ 0 then Align max_height align else max_height
  coll.foldl (fun acc p =>
    match acc with
    | none => none
    | some done =>
      let s := p.2
      let pad_left := max 0 (s.x_offs - UnScaleFraction p.1 min_xoffs)
      let pad_top := max 0 (s.y_offs - UnScaleFraction p.1 min_yoffs)
      let pad_right := max 0 (UnScaleFraction p.1 max_width - s.width - pad_left)
      let pad_bottom := max 0 (UnScaleFraction p.1 max_height - s.height - pad_top)
      if pad_left > 0 ∨ pad_right > 0 ∨ pad_top > 0 ∨ pad_bottom > 0 then
        match PadSingleSprite s pad_left.toNat pad_top.toNat pad_right.toNat
            pad_bottom.toNat with
        | none => none
        | some s2 => some (collSet done p.1 s2)
      else some (collSet done p.1 s))
    (some [])

/-- Modelled from the spec: ZoomLevelToFraction (zoom_func.h, not under
src/). Discrete zoom levels numbered from normal (0 = most detailed, scale
fraction 1) to each 2x-coarser level (fraction halves); levels run
ZOOM_LVL_NORMAL, ZOOM_LVL_OUT_2X, ZOOM_LVL_OUT_4X, ZOOM_LVL_OUT_8X with
ZOOM_LVL_END = 4. -/
def ZoomLevelToFraction (z : Nat) : ℚ := 1 / 2 ^ z

/-- ResizeSprites from spritecache.cpp: upscale the most detailed available
level to normal when needed (failing the load on overflow), pad all levels
to a common box (failing on overflow), derive the missing coarser levels
(return values of ResizeSpriteOut and the min-zoom ResizeSpriteIn upscales
are discarded, as in the source), and optionally upscale to the configured
sprite_zoom_min. The collection is non-empty for any loader result;
map::begin() on an empty collection is undefined behaviour in C++, and no
claim is settled on that case. -/
def ResizeSprites (coll : SpriteColl) (align : Nat) (spriteZoomMin : Nat) :
    Option SpriteColl :=
  match coll with
  | [] => none
  | first :: _ =>
    let first_avail := first.1
    let step1 := if first_avail < ZoomLevelToFraction 0
      then ResizeSpriteIn coll first_avail (ZoomLevelToFraction 0)
      else (true, coll)
    if step1.1 = false then none
    else
      match PadSprites step1.2 align with
      | none => none
      | some coll =>
        let coll := [1, 2, 3].foldl (fun c z =>
          match collFind c (ZoomLevelToFraction z) with
          | some _ => c
          | none => (ResizeSpriteOut c (ZoomLevelToFraction z)).2) coll
        let coll := if first_avail > ZoomLevelToFraction spriteZoomMin then
            let coll := if spriteZoomMin ≥ 2 then
                (ResizeSpriteIn coll (ZoomLevelToFraction 2) (ZoomLevelToFraction 1)).2
              else coll
            if spriteZoomMin ≥ 1 then
              (ResizeSpriteIn coll (ZoomLevelToFraction 1) (ZoomLevelToFraction 0)).2
            else coll
          else coll
        some coll

/-- The possible outcomes of ReadSprite, at the level of this model. -/
inductive ReadOutcome
  | abort
  | mapgenNull
  | mapgenBytes (bytes : List Nat)
  | fallback
  | encoded (coll : SpriteColl)
  | encodedFractional (coll : SpriteColl)
deriving DecidableEq

/-- ReadSprite from spritecache.cpp, with the loader abstracted by its
result (none when neither the 32bpp nor the paletted attempt produced data)
and the encoder abstracted by carrying the final collection in the outcome.
abort stands for UserError (process abort), fallback for the re-entrant
GetRawSprite(SPR_IMG_QUERY, Normal, ...) call whose bytes the caller
receives; per spec section 4.3 the fallback sprite itself is small by
construction and never overflows, so its own load is not expanded here. -/
def ReadSprite (loaded : Option SpriteColl) (id : Nat)
    (sprite_type : SpriteType) (scale : Option ℚ) (fontZoom : ℚ)
    (align : Nat) (spriteZoomMin : Nat) : ReadOutcome :=
  let scale := if sprite_type = SpriteType.Font ∧ scale = none
    then some fontZoom else scale
  match loaded with
  | none =>
    if sprite_type = SpriteType.MapGen then .mapgenNull
    else if id = SPR_IMG_QUERY then .abort
    else .fallback
  | some coll =>
    if sprite_type = SpriteType.MapGen then
      match coll with
      | [] => .mapgenBytes []
      | (_, sprite) :: _ =>
        .mapgenBytes (((sprite.data).take (sprite.width * sprite.height)).map
          (fun p => p.m))
    else
      match scale with
      | some s =>
        let coll := if (collFind coll s).isSome then coll
          else (ResizeSpriteIn coll (match coll with
            | [] => 1
            | f :: _ => f.1) s).2
        .encodedFractional (List.filter (fun p => decide (p.1 = s)) coll)
      | none =>
        match ResizeSprites coll align spriteZoomMin with
        | some coll => .encoded coll
        | none => if id = SPR_IMG_QUERY then .abort else .fallback

/-- A one-level collection at half zoom whose upscale to normal would be
80000 pixels wide. -/
def c5Sprite : SLSprite := { width := 40000, height := 10, x_offs := 0, y_offs := 0, data := [] }

def c5Coll : SpriteColl := [(1/2, c5Sprite)]

/-- A concrete 3x2 source level for exercising ResizeSpriteOut: the middle
pixel of the second row is fully transparent. -/
def c6Src : SLSprite :=
  { width := 3, height := 2, x_offs := 0, y_offs := 0,
    data := [⟨10, 0, 0, 255, 0⟩, ⟨20, 0, 0, 255, 0⟩, ⟨30, 0, 0, 255, 0⟩,
             ⟨40, 0, 0, 255, 0⟩, ⟨50, 0, 0, 0, 0⟩, ⟨60, 0, 0, 255, 0⟩] }

def c6Coll : SpriteColl := [(1, c6Src)]

/-! ## Helper lemmas about the eviction scan -/

theorem heapRemove_subset (f : SpriteInfo) :
    ∀ l : List SpriteInfo, heapRemove f l ⊆ l := by
  intro l
  induction l with
  | nil => exact fun x hx => hx
  | cons a rest ih =>
    unfold heapRemove
    split
    · exact fun x hx => List.mem_cons_of_mem _ hx
    · intro x hx
      rcases List.mem_cons.mp hx with hx | hx
      · exact hx ▸ List.mem_cons_self _ _
      · exact List.mem_cons_of_mem _ (ih hx)

theorem heapPop_subset (cand : List SpriteInfo) : heapPop cand ⊆ cand := by
  unfold heapPop
  cases heapFront cand with
  | none => exact List.nil_subset _
  | some f => exact heapRemove_subset _ _

theorem evictPopLoop_subset (K : Nat) :
    ∀ fuel cand bytes, (evictPopLoop K fuel cand bytes).1 ⊆ cand := by
  intro fuel
  induction fuel with
  | zero => intro cand bytes; exact fun x hx => hx
  | succ n ih =>
    intro cand bytes
    unfold evictPopLoop
    cases heapFront cand with
    | none => exact fun x hx => hx
    | some f =>
      dsimp only
      split
      · exact fun x hx => heapPop_subset cand (ih _ _ hx)
      · exact fun x hx => hx

theorem evictPassOne_mem (K : Nat) :
    ∀ l cand bytes info, info ∈ (evictPassOne K l cand bytes).1 →
      info ∈ cand ∨
        ∃ i sc, (i, sc) ∈ l ∧ evictable sc = true ∧
          info = ⟨sc.lru, i, sc.data.length⟩ := by
  intro l
  induction l with
  | nil =>
    intro cand bytes info h
    exact Or.inl (by simpa [evictPassOne] using h)
  | cons p rest ih =>
    obtain ⟨i, sc⟩ := p
    intro cand bytes info h
    simp only [evictPassOne, heapPush] at h
    split at h
    · exact Or.inl h
    · split at h
      next hev =>
        split at h
        · rcases List.mem_cons.mp h with h | h
          · right; exact ⟨i, sc, by simp, hev, h⟩
          · exact Or.inl h
        · rcases ih _ _ _ h with h' | ⟨j, sc', hmem, hev', heq⟩
          · rcases List.mem_cons.mp h' with h' | h'
            · right; exact ⟨i, sc, by simp, hev, h'⟩
            · exact Or.inl h'
          · right; exact ⟨j, sc', by simp [hmem], hev', heq⟩
      next =>
        rcases ih _ _ _ h with h' | ⟨j, sc', hmem, hev', heq⟩
        · exact Or.inl h'
        · right; exact ⟨j, sc', by simp [hmem], hev', heq⟩

theorem evictPassOne_rest_subset (K : Nat) :
    ∀ l cand bytes, (evictPassOne K l cand bytes).2.2 ⊆ l := by
  intro l
  induction l with
  | nil => intro cand bytes; simp [evictPassOne]
  | cons p rest ih =>
    obtain ⟨i, sc⟩ := p
    intro cand bytes
    simp only [evictPassOne, heapPush]
    split
    · exact fun x hx => hx
    · split
      · split
        · exact fun x hx => hx
        · exact fun x hx => List.mem_cons_of_mem _ (ih _ _ hx)
      · exact fun x hx => List.mem_cons_of_mem _ (ih _ _ hx)

theorem evictPassTwo_mem (K : Nat) :
    ∀ l cand bytes info, info ∈ (evictPassTwo K l cand bytes).1 →
      info ∈ cand ∨
        ∃ i sc, (i, sc) ∈ l ∧ evictable sc = true ∧
          info = ⟨sc.lru, i, sc.data.length⟩ := by
  intro l
  induction l with
  | nil =>
    intro cand bytes info h
    exact Or.inl (by simpa [evictPassTwo] using h)
  | cons p rest ih =>
    obtain ⟨i, sc⟩ := p
    intro cand bytes info h
    simp only [evictPassTwo, heapPush] at h
    split at h
    · rcases ih _ _ _ h with h' | ⟨j, sc', hmem, hev', heq⟩
      · exact Or.inl h'
      · right; exact ⟨j, sc', by simp [hmem], hev', heq⟩
    · split at h
      next hcond =>
        have hev : evictable sc = true := by
          simp only [Bool.and_eq_true] at hcond; exact hcond.1
        rcases ih _ _ _ h with h' | ⟨j, sc', hmem, hev', heq⟩
        · have hmem2 := evictPopLoop_subset K
            (⟨sc.lru, i, sc.data.length⟩ :: cand).length
            (⟨sc.lru, i, sc.data.length⟩ :: cand)
            (bytes + sc.data.length) h'
          rcases List.mem_cons.mp hmem2 with h2 | h2
          · right; exact ⟨i, sc, by simp, hev, h2⟩
          · exact Or.inl h2
        · right; exact ⟨j, sc', by simp [hmem], hev', heq⟩
      next =>
        rcases ih _ _ _ h with h' | ⟨j, sc', hmem, hev', heq⟩
        · exact Or.inl h'
        · right; exact ⟨j, sc', by simp [hmem], hev', heq⟩

theorem enumFrom_mem :
    ∀ (l : List SpriteCache) (n : Nat) (p : Nat × SpriteCache),
      p ∈ enumFrom n l → n ≤ p.1 ∧ l.get? (p.1 - n) = some p.2 := by
  intro l
  induction l with
  | nil => intro n p h; simp [enumFrom] at h
  | cons e rest ih =>
    intro n p h
    unfold enumFrom at h
    rcases List.mem_cons.mp h with h | h
    · subst h; simp
    · obtain ⟨h1, h2⟩ := ih (n + 1) p h
      refine ⟨by omega, ?_⟩
      have hidx : p.1 - n = (p.1 - (n + 1)) + 1 := by omega
      rw [hidx]
      simpa using h2

theorem clearSpriteDataAt_get?_ne (st : CacheState) (j i : Nat) (hne : j ≠ i) :
    (clearSpriteDataAt st j).entries.get? i = st.entries.get? i := by
  unfold clearSpriteDataAt
  cases st.entries.get? j with
  | none => rfl
  | some sc =>
    dsimp only
    rw [List.get?_eq_getElem?, List.get?_eq_getElem?, List.getElem?_set_ne hne]

theorem clearSpriteDataAt_lruCounter (st : CacheState) (j : Nat) :
    (clearSpriteDataAt st j).lruCounter = st.lruCounter := by
  unfold clearSpriteDataAt
  cases st.entries.get? j with
  | none => rfl
  | some sc => rfl

theorem clearFold_get? (cand : List SpriteInfo) :
    ∀ (st : CacheState) (i : Nat), (∀ info ∈ cand, info.id ≠ i) →
      (cand.foldl (fun st info => clearSpriteDataAt st info.id) st).entries.get? i =
        st.entries.get? i := by
  induction cand with
  | nil => intro st i _; rfl
  | cons c rest ih =>
    intro st i hall
    rw [List.foldl_cons, ih _ _ (fun info hm => hall info (List.mem_cons_of_mem _ hm)),
      clearSpriteDataAt_get?_ne _ _ _ (hall c (List.mem_cons_self _ _))]

theorem clearFold_lruCounter (cand : List SpriteInfo) :
    ∀ (st : CacheState),
      (cand.foldl (fun st info => clearSpriteDataAt st info.id) st).lruCounter =
        st.lruCounter := by
  induction cand with
  | nil => intro st; rfl
  | cons c rest ih =>
    intro st
    rw [List.foldl_cons, ih, clearSpriteDataAt_lruCounter]

/-- Every candidate selected for eviction points at a non-Recolour entry of
the scanned table. -/
theorem deleteCandidates_sound (st : CacheState) (K : Nat) (info : SpriteInfo)
    (h : info ∈ (evictPassTwo K
        (evictPassOne K (enumFrom 0 st.entries) [] 0).2.2
        (evictPassOne K (enumFrom 0 st.entries) [] 0).1
        (evictPassOne K (enumFrom 0 st.entries) [] 0).2.1).1) :
    ∃ sc, st.entries.get? info.id = some sc ∧ sc.type ≠ SpriteType.Recolour := by
  have step : ∀ i sc, (i, sc) ∈ enumFrom 0 st.entries → evictable sc = true →
      info = ⟨sc.lru, i, sc.data.length⟩ →
      ∃ sc, st.entries.get? info.id = some sc ∧ sc.type ≠ SpriteType.Recolour := by
    intro i sc hmem hev heq
    obtain ⟨-, hget⟩ := enumFrom_mem st.entries 0 (i, sc) hmem
    simp only [Nat.sub_zero] at hget
    refine ⟨sc, by rw [heq]; exact hget, ?_⟩
    simp only [evictable, Bool.and_eq_true, decide_eq_true_eq] at hev
    exact hev.1
  rcases evictPassTwo_mem K _ _ _ _ h with h' | ⟨i, sc, hmem, hev, heq⟩
  · rcases evictPassOne_mem K _ _ _ _ h' with h'' | ⟨i, sc, hmem, hev, heq⟩
    · simp at h''
    · exact step i sc hmem hev heq
  · exact step i sc (evictPassOne_rest_subset K _ _ _ hmem) hev heq

/-- DeleteEntriesFromSpriteCache never touches an entry whose stored type is
Recolour. -/
theorem deleteEntries_preserves_recolour (st : CacheState) (K : Nat) (i : Nat)
    (sc : SpriteCache) (hget : st.entries.get? i = some sc)
    (htype : sc.type = SpriteType.Recolour) :
    (DeleteEntriesFromSpriteCache st K).entries.get? i = some sc := by
  unfold DeleteEntriesFromSpriteCache
  rw [clearFold_get?]
  · exact hget
  · intro info hmem hid
    obtain ⟨sc', hget', htype'⟩ := deleteCandidates_sound st K info hmem
    rw [hid, hget] at hget'
    cases hget'
    exact htype' htype

theorem deleteEntries_lruCounter (st : CacheState) (K : Nat) :
    (DeleteEntriesFromSpriteCache st K).lruCounter = st.lruCounter := by
  unfold DeleteEntriesFromSpriteCache
  exact clearFold_lruCounter _ _

theorem normal_ne_recolour : (SpriteType.Normal = SpriteType.Recolour) = False :=
  eq_false (by decide)

/-- Symbolic trace of DeleteEntriesFromSpriteCache on a three-entry cache in
which the first pass breaks at the second entry: the break re-examines that
entry, so it enters the candidate heap twice, its size is double-counted, and
the first entry is popped even though dropping it leaves fewer than the
requested bytes actually freed. -/
theorem deleteEntries_trace (sc0 sc1 sc2 : SpriteCache) (usage cnt K : Nat)
    (hc0 : evictable sc0 = true) (hc1 : evictable sc1 = true)
    (hc2 : evictable sc2 = true)
    (hK0 : 0 < K)
    (hKa : sc0.data.length < K)
    (hKab : K ≤ sc0.data.length + sc1.data.length)
    (hlru01 : sc1.lru < sc0.lru)
    (hK2b : K ≤ 2 * sc1.data.length)
    (hKb : sc1.data.length < K)
    (hlru12 : sc1.lru < sc2.lru) :
    DeleteEntriesFromSpriteCache
        { entries := [sc0, sc1, sc2], bytesUsed := usage, lruCounter := cnt } K =
      { entries := [sc0, { sc1 with data := [] }, sc2],
        bytesUsed := usage - sc1.data.length, lruCounter := cnt } := by
  have A1 : (K ≤ 0) = False := eq_false (by omega)
  have A2 : (K ≤ 0 + sc0.data.length) = False := eq_false (by omega)
  have A3 : (K ≤ 0 + sc0.data.length + sc1.data.length) = True := eq_true (by omega)
  have F1 : (sc1.lru < sc0.lru) = True := eq_true hlru01
  have F2 : (sc1.lru < sc1.lru) = False := eq_false (lt_irrefl _)
  have D1 : decide (sc1.lru ≤ sc0.lru) = true := decide_eq_true (le_of_lt hlru01)
  have D2 : decide (sc2.lru ≤ sc1.lru) = false := decide_eq_false (by omega)
  have B1 : (K ≤ 0 + sc0.data.length + sc1.data.length + sc1.data.length
      - sc0.data.length) = True := eq_true (by omega)
  have B2 : (K ≤ 0 + sc0.data.length + sc1.data.length + sc1.data.length
      - sc0.data.length - sc1.data.length) = False := eq_false (by omega)
  have E1 : ((⟨sc1.lru, 1, sc1.data.length⟩ : SpriteInfo)
      = ⟨sc0.lru, 0, sc0.data.length⟩) = False := eq_false (by simp)
  have E2 : ((⟨sc0.lru, 0, sc0.data.length⟩ : SpriteInfo)
      = ⟨sc0.lru, 0, sc0.data.length⟩) = True := eq_true rfl
  simp only [DeleteEntriesFromSpriteCache, enumFrom, evictPassOne, evictPassTwo,
    evictPopLoop, heapFront, heapPush, heapPop, heapRemove, clearSpriteDataAt,
    List.foldl_cons, List.foldl_nil, List.get?, List.set,
    List.length_cons, List.length_nil, List.length_eq_zero,
    hc0, hc1, hc2, D1, D2, Bool.true_and, Bool.and_true, Bool.and_false,
    Bool.false_and, ge_iff_le, A1, A2, A3, F1, F2, B1, B2, E1, E2,
    if_true, if_false, Nat.sub_zero, Bool.false_eq_true, Bool.true_eq_false,
    eq_self_iff_true]

theorem c3_evictable0 : evictable c3e0 = true := by
  simp only [c3e0, evictable, sampleBytes_isEmpty_succ, Bool.not_false, Bool.and_true]
  norm_num [normal_ne_recolour]

theorem c3_evictable1 : evictable c3e1 = true := by
  simp only [c3e1, evictable, sampleBytes_isEmpty_succ, Bool.not_false, Bool.and_true]
  norm_num [normal_ne_recolour]

theorem c3_evictable2 : evictable c3e2 = true := by
  simp only [c3e2, evictable, sampleBytes_isEmpty_succ, Bool.not_false, Bool.and_true]
  norm_num [normal_ne_recolour]

theorem c3_size0_lt : c3e0.data.length < 524289 := by
  simp only [c3e0, sampleBytes_length]; omega

theorem c3_size01_ge : 524289 ≤ c3e0.data.length + c3e1.data.length := by
  have h0 : c3e0.data.length = 224289 := by simp only [c3e0, sampleBytes_length]
  have h1 : c3e1.data.length = 300000 := by simp only [c3e1, sampleBytes_length]
  omega

theorem c3_lru01 : c3e1.lru < c3e0.lru := by
  simp only [c3e0, c3e1]; omega

theorem c3_size1_twice : 524289 ≤ 2 * c3e1.data.length := by
  have h1 : c3e1.data.length = 300000 := by simp only [c3e1, sampleBytes_length]
  omega

theorem c3_size1_lt : c3e1.data.length < 524289 := by
  simp only [c3e1, sampleBytes_length]; omega

theorem c3_lru12 : c3e1.lru < c3e2.lru := by
  simp only [c3e1, c3e2]; omega

set_option maxRecDepth 4000 in
theorem c3_delete_eval :
    DeleteEntriesFromSpriteCache
        { entries := [c3e0, c3e1, c3e2], bytesUsed := 1048577, lruCounter := 0 }
        524289 =
      { entries := [c3e0, { c3e1 with data := [] }, c3e2],
        bytesUsed := 748577, lruCounter := 0 } := by
  have hdel := deleteEntries_trace c3e0 c3e1 c3e2 1048577 0 524289
    c3_evictable0 c3_evictable1 c3_evictable2 (by omega) c3_size0_lt
    c3_size01_ge c3_lru01 c3_size1_twice c3_size1_lt c3_lru12
  have hlen : c3e1.data.length = 300000 := by simp only [c3e1, sampleBytes_length]
  rw [hlen] at hdel
  rw [hdel]

set_option maxRecDepth 4000 in
theorem c3_increase_eval : IncreaseSpriteLRU 8 1 c3State =
    { entries := [c3e0, { c3e1 with data := [] }, c3e2],
      bytesUsed := 748577, lruCounter := 0 } := by
  simp only [IncreaseSpriteLRU, targetSize, c3State]
  have e1 : ((if 8 > 0 then 1 * 8 / 8 else 1) * 1024 * 1024 : Nat) = 1048576 := by
    norm_num
  simp only [e1]
  have e2 : ((1048577:Nat) > 1048576) = True := eq_true (by norm_num)
  simp only [e2, if_true]
  have e3 : (1048577 - 1048576 + 512 * 1024 : Nat) = 524289 := by norm_num
  simp only [e3]
  rw [c3_delete_eval]
  have e4 : ((3221225472:Nat) ≤ 0) = False := eq_false (by norm_num)
  simp only [ge_iff_le, e4, if_false]

/-- C1: the eviction routine is claimed to always remove at least the
requested number of bytes (choosing the smallest-LRU entries). On the
two-entry cache c1State (sizes 60 and 50, LRU stamps 30 and 5) a request for
100 bytes frees only the 50-byte entry: the first-pass break leaves the scan
index unincremented, the 50-byte entry is pushed into the candidate heap a
second time, its size is counted twice, and the 60-byte entry is popped as
seemingly unnecessary. 110 eligible bytes were available, yet only 50 are
freed (byte usage drops 110 to 60), contradicting the claim and the
function's own documentation. -/
theorem c1_eviction_frees_less_than_requested :
    c1State.bytesUsed = 110 ∧
    (DeleteEntriesFromSpriteCache c1State 100).bytesUsed = 60 ∧
    ((DeleteEntriesFromSpriteCache c1State 100).entries.map
      fun sc => sc.data.length) = [60, 0] := by
  decide

/-- The LRU counter is untouched by eviction, and entries other than the
cleared candidates are untouched; a Recolour entry is never a candidate. -/
theorem increase_recolour_core (bpp cs : Nat) (st : CacheState) (i : Nat)
    (sc : SpriteCache) (hget : st.entries.get? i = some sc)
    (htype : sc.type = SpriteType.Recolour) :
    ∃ sc', (IncreaseSpriteLRU bpp cs st).entries.get? i = some sc' ∧
      sc'.data = sc.data := by
  have hmap : ∀ (l : List SpriteCache), l.get? i = some sc →
      (l.map (fun e => if e.data.isEmpty then e
        else { e with lru := rebaseLru e.lru })).get? i
        = some (if sc.data.isEmpty then sc
            else { sc with lru := rebaseLru sc.lru }) := by
    intro l hg
    rw [List.get?_eq_getElem?, List.getElem?_map, ← List.get?_eq_getElem?, hg]
    rfl
  have hdata : (if sc.data.isEmpty then sc
      else { sc with lru := rebaseLru sc.lru }).data = sc.data := by
    split <;> rfl
  simp only [IncreaseSpriteLRU]
  by_cases hb : st.bytesUsed > targetSize bpp cs
  · rw [if_pos hb]
    have hpres := deleteEntries_preserves_recolour st
      (st.bytesUsed - targetSize bpp cs + 512 * 1024) i sc hget htype
    by_cases hc : (DeleteEntriesFromSpriteCache st
        (st.bytesUsed - targetSize bpp cs + 512 * 1024)).lruCounter ≥ 0xC0000000
    · rw [if_pos hc]
      exact ⟨_, hmap _ hpres, hdata⟩
    · rw [if_neg hc]
      exact ⟨sc, hpres, rfl⟩
  · rw [if_neg hb]
    by_cases hc : st.lruCounter ≥ 0xC0000000
    · rw [if_pos hc]
      exact ⟨_, hmap _ hget, hdata⟩
    · rw [if_neg hc]
      exact ⟨sc, hget, rfl⟩

/-- C2: Recolour-typed entries are never selected for eviction, and the LRU
rebase does not touch buffers: after any IncreaseSpriteLRU call, a Recolour
entry's data buffer is exactly what it was, and in particular a Recolour
entry that had non-empty data still has non-empty data. -/
theorem c2_recolour_entries_never_evicted (bpp cs : Nat) (st : CacheState)
    (i : Nat) (sc : SpriteCache) (hget : st.entries.get? i = some sc)
    (htype : sc.type = SpriteType.Recolour) :
    ∃ sc', (IncreaseSpriteLRU bpp cs st).entries.get? i = some sc' ∧
      sc'.data = sc.data ∧ (sc.data ≠ [] → sc'.data ≠ []) := by
  obtain ⟨sc', h1, h2⟩ := increase_recolour_core bpp cs st i sc hget htype
  exact ⟨sc', h1, h2, fun hne => h2 ▸ hne⟩

/-- Witness for C2: in a cache over budget (zero-size configured cache), the
Recolour entry keeps its bytes while eviction runs. -/
theorem c2_recolour_entries_never_evicted_witness :
    ∃ sc', (IncreaseSpriteLRU 8 0 c2wState).entries.get? 0 = some sc' ∧
      sc'.data = c2wEntry.data ∧ (c2wEntry.data ≠ [] → sc'.data ≠ []) :=
  c2_recolour_entries_never_evicted 8 0 c2wState 0 c2wEntry rfl rfl

/-- C3: IncreaseSpriteLRU computes the budget as claimed and triggers
eviction exactly when usage exceeds it, but on c3State (usage one byte over a
1MiB budget) the triggered eviction frees only 300000 bytes, less even than
the claim's stated margin of target - usage + 512KiB = 524287 bytes (the
request passed to the eviction routine is usage - target + 512KiB = 524289
bytes, and the double-counted candidate makes the actual freeing fall
short). -/
theorem c3_budget_eviction_undershoots_margin :
    targetSize 8 1 < c3State.bytesUsed ∧
    c3State.bytesUsed - (IncreaseSpriteLRU 8 1 c3State).bytesUsed = 300000 ∧
    c3State.bytesUsed - (IncreaseSpriteLRU 8 1 c3State).bytesUsed
      < targetSize 8 1 + 512 * 1024 - c3State.bytesUsed := by
  rw [c3_increase_eval]
  simp only [c3State, targetSize]
  norm_num

/-- C4 counterexample: two live entries with nonzero stamps 1 < 2, both at or
below the pivot 0x80000000, are both rebased to 0 when the counter reaches
0xC0000000, so the rebase does not preserve strict order. -/
theorem c4_rebase_order_not_strictly_preserved :
    (c4State.entries.getD 0 default).data ≠ [] ∧
    (c4State.entries.getD 1 default).data ≠ [] ∧
    0 < (c4State.entries.getD 0 default).lru ∧
    (c4State.entries.getD 0 default).lru < (c4State.entries.getD 1 default).lru ∧
    c4State.lruCounter ≥ 0xC0000000 ∧
    ¬ (((IncreaseSpriteLRU 8 1 c4State).entries.getD 0 default).lru <
        ((IncreaseSpriteLRU 8 1 c4State).entries.getD 1 default).lru) := by
  decide

theorem rebaseLru_le (a : Nat) : rebaseLru a ≤ a := by
  unfold rebaseLru
  split <;> omega

theorem rebaseLru_mono (a b : Nat) (h : a < b) :
    rebaseLru a ≤ rebaseLru b ∧ (0x80000000 < b → rebaseLru a < rebaseLru b) := by
  unfold rebaseLru
  constructor
  · split <;> split <;> omega
  · intro hb
    rw [if_pos hb]
    split <;> omega

/-- C4 amended: when the counter has reached 0xC0000000 (and usage is within
budget, so eviction leaves the table untouched), the rebase maps every live
stamp downward (above the pivot reduced by it, at or below it zeroed), and
order is preserved non-strictly: for stamps a < b the rebased stamps satisfy
a' ≤ b', strictly whenever b exceeds the pivot 0x80000000; two stamps both at
or below the pivot collapse to 0. -/
theorem c4_rebase_order_amended (bpp cs : Nat) (st : CacheState) (i j : Nat)
    (sci scj : SpriteCache)
    (hgi : st.entries.get? i = some sci) (hgj : st.entries.get? j = some scj)
    (hdi : sci.data.isEmpty = false) (hdj : scj.data.isEmpty = false)
    (hbudget : ¬ st.bytesUsed > targetSize bpp cs)
    (hcnt : st.lruCounter ≥ 0xC0000000)
    (hlt : sci.lru < scj.lru) :
    ∃ sci' scj',
      (IncreaseSpriteLRU bpp cs st).entries.get? i = some sci' ∧
      (IncreaseSpriteLRU bpp cs st).entries.get? j = some scj' ∧
      sci'.lru = rebaseLru sci.lru ∧ scj'.lru = rebaseLru scj.lru ∧
      sci'.lru ≤ sci.lru ∧ scj'.lru ≤ scj.lru ∧
      sci'.lru ≤ scj'.lru ∧
      (0x80000000 < scj.lru → sci'.lru < scj'.lru) := by
  have hmap : ∀ (sc : SpriteCache) (k : Nat), st.entries.get? k = some sc →
      sc.data.isEmpty = false →
      (st.entries.map (fun e => if e.data.isEmpty then e
        else { e with lru := rebaseLru e.lru })).get? k
        = some { sc with lru := rebaseLru sc.lru } := by
    intro sc k hg hd
    rw [List.get?_eq_getElem?, List.getElem?_map, ← List.get?_eq_getElem?, hg]
    have hcond : ¬ (sc.data.isEmpty = true) := by simp [hd]
    simp only [Option.map_some', if_neg hcond]
  simp only [IncreaseSpriteLRU]
  rw [if_neg hbudget, if_pos hcnt]
  refine ⟨_, _, hmap sci i hgi hdi, hmap scj j hgj hdj, rfl, rfl,
    rebaseLru_le _, rebaseLru_le _, (rebaseLru_mono _ _ hlt).1,
    (rebaseLru_mono _ _ hlt).2⟩

/-- Witness for C4 amended: two entries with stamps above the pivot keep
their strict order through the rebase. -/
theorem c4_rebase_order_amended_witness :
    ∃ sci' scj',
      (IncreaseSpriteLRU 8 1 c4wState).entries.get? 0 = some sci' ∧
      (IncreaseSpriteLRU 8 1 c4wState).entries.get? 1 = some scj' ∧
      sci'.lru = rebaseLru 0x80000005 ∧ scj'.lru = rebaseLru 0x80000007 ∧
      sci'.lru ≤ 0x80000005 ∧ scj'.lru ≤ 0x80000007 ∧
      sci'.lru ≤ scj'.lru ∧
      (0x80000000 < 0x80000007 → sci'.lru < scj'.lru) :=
  c4_rebase_order_amended 8 1 c4wState 0 1
    { file := some 1, file_pos := 10, type := SpriteType.Normal,
      data := [1], lru := 0x80000005 }
    { file := some 1, file_pos := 20, type := SpriteType.Normal,
      data := [2], lru := 0x80000007 }
    rfl rfl rfl rfl (by decide) (by decide) (by decide)

theorem spriteExists_iff (entries : List SpriteCache) (id : Nat) :
    SpriteExists entries id = true ↔
      id < entries.length ∧
        (id = 0 ∨ (entries.getD id default).file_pos ≠ 0 ∨
          (entries.getD id default).file ≠ none) := by
  unfold SpriteExists
  by_cases hge : id ≥ entries.length
  · have hnlt : ¬ id < entries.length := by omega
    simp [hge, hnlt]
  · have hlt : id < entries.length := by omega
    by_cases h0 : id = 0
    · subst h0
      simp [hge, hlt]
    · simp only [hge, if_false, h0, if_true, hlt, true_and, false_or]
      simp only [Bool.not_eq_true', Bool.and_eq_false_iff, decide_eq_false_iff_not]

/-- C8: SpriteExists(id) is true exactly when the id is inside the allocated
table and the entry has a nonzero file position or a non-null file reference,
with id 0 special-cased as always existing (within the table). -/
theorem c8_sprite_exists_characterisation (entries : List SpriteCache) (id : Nat) :
    SpriteExists entries id = true ↔
      id < entries.length ∧
        (id = 0 ∨ (entries.getD id default).file_pos ≠ 0 ∨
          (entries.getD id default).file ≠ none) :=
  spriteExists_iff entries id

/-- C9 counterexample: a pixel with a palette mask (m = 5) and alpha 0 (below
the threshold) whose channels are black keeps its mask: the transform leaves
it untouched (brightness 0), so not every below-threshold pixel becomes
palette index 0. -/
theorem c9_masked_transparent_pixel_kept :
    (⟨0, 0, 0, 0, 5⟩ : CommonPixel).a < 128 ∧
    (Convert32bppTo8bpp cPal (GetNearestColourIndex cPal) cReshade
      [⟨0, 0, 0, 0, 5⟩]).map (fun p => p.m) = [5] := by
  decide

/-- C9 amended: for pixels without an explicit palette-remap mask (m = 0),
the transform makes every below-threshold-alpha pixel fully transparent
(index 0) and assigns every other such pixel the nearest palette colour by
RGB distance. -/
theorem c9_maskless_pixels (pal : Nat → Colour) (nr : Nat → Nat)
    (p : CommonPixel) (hm : p.m = 0) :
    (convertPixel pal (GetNearestColourIndex pal) nr p).m =
      if p.a < 128 then 0 else GetNearestColourIndex pal p.r p.g p.b := by
  unfold convertPixel
  rw [hm]
  have h0 : ¬ ((0:Nat) ≠ 0) := by simp
  rw [if_neg h0]
  by_cases ha : p.a < 128
  · rw [if_pos ha, if_pos ha]
  · rw [if_neg ha, if_neg ha]

/-- Witness for C9 amended: a maskless pixel with alpha 50 becomes
transparent. -/
theorem c9_maskless_pixels_witness :
    (⟨1, 2, 3, 50, 0⟩ : CommonPixel).m = 0 ∧
    (convertPixel cPal (GetNearestColourIndex cPal) cReshade ⟨1, 2, 3, 50, 0⟩).m =
      if (⟨1, 2, 3, 50, 0⟩ : CommonPixel).a < 128 then 0
      else GetNearestColourIndex cPal 1 2 3 :=
  ⟨rfl, c9_maskless_pixels cPal cReshade ⟨1, 2, 3, 50, 0⟩ rfl⟩

/-- C7 counterexample: a cache entry stored as Normal with resident
(non-empty) data, requested as Font, is returned as-is: its stored type stays
Normal and its bytes are not reloaded, contradicting the claim that every
such request promotes the entry to Font and reloads. -/
theorem c7_resident_normal_entry_not_promoted :
    (c7State.entries.getD 1 default).type = SpriteType.Normal ∧
    (c7State.entries.getD 1 default).data = [7] ∧
    (GetRawSprite cLoad 2 c7State 1 SpriteType.Font none false false).1 =
      SpriteResult.cachedBytes 1 ∧
    ((GetRawSprite cLoad 2 c7State 1 SpriteType.Font none false false).2.entries.getD
      1 default).type = SpriteType.Normal ∧
    ((GetRawSprite cLoad 2 c7State 1 SpriteType.Font none false false).2.entries.getD
      1 default).data = [7] := by
  decide

theorem get?_set_self {α : Type} (l : List α) (i : Nat) (a : α)
    (h : i < l.length) : (l.set i a).get? i = some a := by
  rw [List.get?_eq_getElem?]
  simp [List.getElem?_set, h]

theorem getD_set_self (l : List SpriteCache) (i : Nat) (a : SpriteCache)
    (h : i < l.length) : (l.set i a).getD i default = a := by
  unfold List.getD
  rw [get?_set_self l i a h]
  rfl

theorem get?_lt_length {α : Type} {l : List α} {i : Nat} {a : α}
    (h : l.get? i = some a) : i < l.length := by
  by_contra hge
  rw [List.get?_eq_getElem?, List.getElem?_eq_none (by omega)] at h
  cases h

/-- SpriteExists only inspects the table length and the file/file_pos fields,
so replacing an entry by one with the same file and position preserves it. -/
theorem spriteExists_set (l : List SpriteCache) (i : Nat) (sc sc' : SpriteCache)
    (hget : l.get? i = some sc)
    (hf : sc'.file = sc.file) (hp : sc'.file_pos = sc.file_pos) :
    SpriteExists (l.set i sc') i = SpriteExists l i := by
  have hi : i < l.length := get?_lt_length hget
  have hgd : l.getD i default = sc := by
    unfold List.getD
    rw [hget]
    rfl
  unfold SpriteExists
  rw [List.length_set, getD_set_self l i sc' hi, hgd, hf, hp]

/-- The cached path of GetRawSprite: with no allocator/encoder override and a
matching stored type, the entry is stamped with a fresh LRU counter, loaded
if its buffer is empty, and a pointer into its own buffer is returned. -/
theorem getRawSprite_cached (load : Nat → SpriteType → Option ℚ → List Nat)
    (fuel : Nat) (st : CacheState) (sprite : Nat) (sc : SpriteCache)
    (type : SpriteType)
    (hex : SpriteExists st.entries sprite = true)
    (hget : st.entries.get? sprite = some sc)
    (hty : sc.type = type) :
    ∃ sc',
      (GetRawSprite load (fuel + 1) st sprite type none false false).1 =
        SpriteResult.cachedBytes sprite ∧
      (GetRawSprite load (fuel + 1) st sprite type none false false).2.entries.get?
        sprite = some sc' ∧
      sc'.type = sc.type ∧
      sc'.data = (if sc.data.isEmpty then load sprite type none else sc.data) ∧
      sc'.warned = sc.warned := by
  have hlen : sprite < st.entries.length := get?_lt_length hget
  unfold GetRawSprite
  rw [if_pos hex]
  simp only [hget]
  rw [if_neg (not_not_intro hty)]
  rw [if_pos (by simp)]
  by_cases hd : sc.data.isEmpty
  · rw [if_pos hd]
    refine ⟨{ sc with lru := st.lruCounter + 1, data := load sprite type none },
      rfl, ?_, rfl, ?_, rfl⟩
    · rw [get?_set_self]
      rw [List.length_set]
      exact hlen
    · rw [if_pos hd]
  · rw [if_neg hd]
    refine ⟨{ sc with lru := st.lruCounter + 1 }, rfl, ?_, rfl, ?_, rfl⟩
    · rw [get?_set_self]
      exact hlen
    · rw [if_neg hd]

/-- C7 amended: a Font request against a Normal-typed entry is benign: when
the entry's buffer is empty, the stored type is promoted to Font and the data
is loaded as a Font sprite; when the entry is resident as Normal, it is
returned as-is with its type unchanged. In both cases the sprite's own buffer
is returned, the one-shot warning flag is untouched, and there is no fallback
substitution and no fatal error. -/
theorem c7_font_request_against_normal
    (load : Nat → SpriteType → Option ℚ → List Nat) (st : CacheState)
    (sprite : Nat) (sc : SpriteCache)
    (hex : SpriteExists st.entries sprite = true)
    (hget : st.entries.get? sprite = some sc)
    (htype : sc.type = SpriteType.Normal) :
    ∃ sc',
      (GetRawSprite load 2 st sprite SpriteType.Font none false false).1 =
        SpriteResult.cachedBytes sprite ∧
      (GetRawSprite load 2 st sprite SpriteType.Font none false false).2.entries.get?
        sprite = some sc' ∧
      sc'.type = (if sc.data.isEmpty then SpriteType.Font else SpriteType.Normal) ∧
      sc'.data = (if sc.data.isEmpty then load sprite SpriteType.Font none
        else sc.data) ∧
      sc'.warned = sc.warned := by
  have hne : sc.type ≠ SpriteType.Font := by rw [htype]; decide
  have hlen : sprite < st.entries.length := get?_lt_length hget
  rw [GetRawSprite]
  rw [if_pos hex]
  simp only [hget]
  rw [if_pos hne]
  rw [if_pos (by exact ⟨trivial, htype⟩)]
  by_cases hd : sc.data.isEmpty
  · simp only [hd, eq_self_iff_true, if_true]
    have hex' : SpriteExists
        (st.entries.set sprite { sc with type := SpriteType.Font }) sprite = true := by
      rw [spriteExists_set st.entries sprite sc { sc with type := SpriteType.Font } hget rfl rfl]
      exact hex
    have hget' : (st.entries.set sprite { sc with type := SpriteType.Font }).get?
        sprite = some { sc with type := SpriteType.Font } :=
      get?_set_self _ _ _ hlen
    obtain ⟨sc', h1, h2, h3, h4, h5⟩ := getRawSprite_cached load 0
      { st with entries := st.entries.set sprite { sc with type := SpriteType.Font } }
      sprite { sc with type := SpriteType.Font } SpriteType.Font hex' hget' rfl
    refine ⟨sc', h1, h2, h3, ?_, h5⟩
    rw [h4]
    dsimp only
    simp only [hd, eq_self_iff_true, if_true]
  · have hd' : sc.data.isEmpty = false := by
      revert hd
      cases sc.data.isEmpty <;> simp
    simp only [hd', Bool.false_eq_true, if_false]
    obtain ⟨sc', h1, h2, h3, h4, h5⟩ := getRawSprite_cached load 0
      st sprite sc SpriteType.Normal hex hget htype
    refine ⟨sc', h1, h2, ?_, ?_, h5⟩
    · rw [h3, htype]
    · rw [h4]
      simp only [hd', Bool.false_eq_true, if_false]

/-- Witness for C7 amended: a non-resident Normal entry requested as Font is
promoted to Font and loaded. -/
theorem c7_font_request_against_normal_witness :
    ∃ sc',
      (GetRawSprite cLoad 2 c7StateEmpty 1 SpriteType.Font none false false).1 =
        SpriteResult.cachedBytes 1 ∧
      (GetRawSprite cLoad 2 c7StateEmpty 1 SpriteType.Font none
        false false).2.entries.get? 1 = some sc' ∧
      sc'.type = SpriteType.Font ∧
      sc'.data = cLoad 1 SpriteType.Font none ∧
      sc'.warned = false :=
  c7_font_request_against_normal cLoad c7StateEmpty 1
    { file := some 1, file_pos := 2, type := SpriteType.Normal,
      data := [], lru := 0 }
    (by decide) rfl rfl

/-- C10: under the precondition that a non-null encoder is only supplied
together with a non-null allocator, GetRawSprite never dereferences a null
allocator: the cache-bypass branch is the only place the allocator is
dereferenced, it is taken exactly when an allocator or encoder is supplied,
and the precondition rules out the encoder-only combination. -/
theorem c10_no_null_allocator_deref (load : Nat → SpriteType → Option ℚ → List Nat)
    (fuel : Nat) (st : CacheState) (sprite : Nat) (type : SpriteType)
    (scale : Option ℚ) (alloc enc : Bool)
    (hpre : enc = true → alloc = true) :
    (GetRawSprite load fuel st sprite type scale alloc enc).1 ≠
      SpriteResult.nullAllocatorDeref := by
  induction fuel generalizing st sprite type scale alloc enc with
  | zero =>
    rw [GetRawSprite]
    intro h
    cases h
  | succ n ih =>
    rw [GetRawSprite]
    dsimp only
    by_cases hsp : SpriteExists st.entries sprite = true
    · rw [if_pos hsp]
      split
      · intro h; cases h
      · split
        · split
          · exact ih _ _ _ _ _ _ (fun h => nomatch h)
          · cases type with
            | Normal =>
              dsimp only
              split
              · intro h; cases h
              · exact ih _ _ _ _ _ _ (fun h => nomatch h)
            | MapGen => intro h; cases h
            | Font => exact ih _ _ _ _ _ _ (fun h => nomatch h)
            | Recolour =>
              dsimp only
              split
              · intro h; cases h
              · exact ih _ _ _ _ _ _ (fun h => nomatch h)
            | Invalid => intro h; cases h
        · split
          next hcached =>
            split
            · split
              · intro h; cases h
              · intro h; cases h
            · split
              · intro h; cases h
              · intro h; cases h
          next hcached =>
            split
            next halloc =>
              exfalso
              apply hcached
              refine ⟨halloc, ?_⟩
              cases henc : enc with
              | false => rfl
              | true => rw [hpre henc] at halloc; cases halloc
            next => intro h; cases h
    · rw [if_neg hsp]
      split
      · intro h; cases h
      · split
        · split
          · exact ih _ _ _ _ _ _ (fun h => nomatch h)
          · cases type with
            | Normal =>
              dsimp only
              split
              · intro h; cases h
              · exact ih _ _ _ _ _ _ (fun h => nomatch h)
            | MapGen => intro h; cases h
            | Font => exact ih _ _ _ _ _ _ (fun h => nomatch h)
            | Recolour =>
              dsimp only
              split
              · intro h; cases h
              · exact ih _ _ _ _ _ _ (fun h => nomatch h)
            | Invalid => intro h; cases h
        · split
          next hcached =>
            split
            · split
              · intro h; cases h
              · intro h; cases h
            · split
              · intro h; cases h
              · intro h; cases h
          next hcached =>
            split
            next halloc =>
              exfalso
              apply hcached
              refine ⟨halloc, ?_⟩
              cases henc : enc with
              | false => rfl
              | true => rw [hpre henc] at halloc; cases halloc
            next => intro h; cases h

/-- Witness for C10: a call with both allocator and encoder supplied takes
the bypass path without a null dereference. -/
theorem c10_no_null_allocator_deref_witness :
    (GetRawSprite cLoad 2 c7State 1 SpriteType.Normal none true true).1 ≠
      SpriteResult.nullAllocatorDeref :=
  c10_no_null_allocator_deref cLoad 2 c7State 1 SpriteType.Normal none true true
    (fun _ => rfl)

theorem collFind_self (s : ℚ) (sp : SLSprite) (rest : List (ℚ × SLSprite)) :
    collFind ((s, sp) :: rest) s = some sp := by
  unfold collFind
  rw [if_pos rfl]

theorem collFind_collErase (c : SpriteColl) (k : ℚ) :
    collFind (collErase c k) k = none := by
  induction c with
  | nil => rfl
  | cons p rest ih =>
    obtain ⟨k0, v0⟩ := p
    unfold collErase at ih ⊢
    rw [List.filter_cons]
    split
    next hkeep =>
      have hne : k ≠ k0 := by
        simp only [decide_eq_true_eq] at hkeep
        exact fun h => hkeep h.symm
      unfold collFind
      rw [if_neg hne]
      exact ih
    next => exact ih

/-- The overflow trace of ReadSprite: a collection whose most detailed level
is below normal zoom and whose upscale to normal would exceed 65535 in
either dimension fails the resize, the oversized level is erased rather than
produced, and ReadSprite ends in the fallback call, or in the UserError abort
when the sprite is the fallback sprite itself. -/
theorem readSprite_overflow (s : ℚ) (sp : SLSprite) (rest : List (ℚ × SLSprite))
    (hs1 : s < 1)
    (hover : 65535 < Int.ceil ((sp.width : ℚ) * 1 / s) ∨
      65535 < Int.ceil ((sp.height : ℚ) * 1 / s))
    (id : Nat) (fz : ℚ) (align zmin : Nat) :
    (ResizeSpriteIn ((s, sp) :: rest) s 1).1 = false ∧
    collFind (ResizeSpriteIn ((s, sp) :: rest) s 1).2 1 = none ∧
    ResizeSprites ((s, sp) :: rest) align zmin = none ∧
    ReadSprite (some ((s, sp) :: rest)) id SpriteType.Normal none fz align zmin =
      (if id = SPR_IMG_QUERY then ReadOutcome.abort else ReadOutcome.fallback) := by
  have hz : ZoomLevelToFraction 0 = 1 := by norm_num [ZoomLevelToFraction]
  have hcond : (65535 : Int) < Int.ceil ((sp.width : ℚ) * 1 / s) ∨
      (65535 : Int) < Int.ceil ((sp.height : ℚ) * 1 / s) := hover
  have hin : ResizeSpriteIn ((s, sp) :: rest) s 1 =
      (false, collErase ((s, sp) :: rest) 1) := by
    unfold ResizeSpriteIn
    rw [collFind_self]
    simp only [Option.getD_some, Option.isSome_some, if_true]
    rw [if_pos hcond]
  have hrs : ResizeSprites ((s, sp) :: rest) align zmin = none := by
    unfold ResizeSprites
    rw [hz]
    dsimp only
    rw [if_pos hs1]
    rw [hin]
    dsimp only
    rw [if_pos rfl]
  refine ⟨by rw [hin], by rw [hin]; exact collFind_collErase _ _, hrs, ?_⟩
  unfold ReadSprite
  have hns : ¬ (SpriteType.Normal = SpriteType.Font ∧ (none : Option ℚ) = none) := by
    intro h
    cases h.1
  rw [if_neg hns]
  dsimp only
  rw [if_neg (by intro h; cases h)]
  rw [hrs]

/-- C5 counterexample: when the sprite whose upscale-to-normal overflows is
the fallback question-mark sprite itself, ReadSprite reaches the UserError
(process abort) rather than a fallback substitution, so the claim's
universal "the process does not abort" fails. -/
theorem c5_fallback_sprite_overflow_aborts :
    ReadSprite (some [((1/2 : ℚ), c5Sprite)]) SPR_IMG_QUERY SpriteType.Normal
      none 1 0 0 = ReadOutcome.abort := by
  have h := (readSprite_overflow (1/2) c5Sprite [] (by norm_num)
    (Or.inl (by norm_num [c5Sprite])) SPR_IMG_QUERY 1 0 0).2.2.2
  rw [if_pos rfl] at h
  exact h

/-- C5 amended: whenever a synthesized or padded level's width or height
would exceed 65535, the oversized level is rejected rather than produced and
the load of that sprite fails; for every sprite other than the fallback
question-mark sprite the process does not abort and the caller is routed to
the fallback sprite instead (the fallback sprite itself aborts with a user
error, per the counterexample). Four conjuncts: (1) an upscale-to-normal
synthesis overflow erases the oversized level, fails the resize and ends
ReadSprite in the fallback path; (2) a padded level whose dimensions
overflow is rejected by PadSingleSprite; (3) a padding failure fails the
whole resize; (4) every failed resize ends ReadSprite in the fallback path
without an abort for every non-fallback sprite id. -/
theorem c5_overflow_rejected_no_abort :
    (∀ (s : ℚ) (sp : SLSprite) (rest : List (ℚ × SLSprite)),
      s < 1 →
      (65535 < Int.ceil ((sp.width : ℚ) * 1 / s) ∨
        65535 < Int.ceil ((sp.height : ℚ) * 1 / s)) →
      ∀ (id : Nat), id ≠ SPR_IMG_QUERY → ∀ (fz : ℚ) (align zmin : Nat),
      (ResizeSpriteIn ((s, sp) :: rest) s 1).1 = false ∧
      collFind (ResizeSpriteIn ((s, sp) :: rest) s 1).2 1 = none ∧
      ResizeSprites ((s, sp) :: rest) align zmin = none ∧
      ReadSprite (some ((s, sp) :: rest)) id SpriteType.Normal none fz align
        zmin = ReadOutcome.fallback) ∧
    (∀ (sp : SLSprite) (pl pt pr pb : Nat),
      65535 < sp.width + pl + pr ∨ 65535 < sp.height + pt + pb →
      PadSingleSprite sp pl pt pr pb = none) ∧
    (∀ (first : ℚ × SLSprite) (rest : List (ℚ × SLSprite)) (align zmin : Nat),
      ¬ first.1 < ZoomLevelToFraction 0 →
      PadSprites (first :: rest) align = none →
      ResizeSprites (first :: rest) align zmin = none) ∧
    (∀ (coll : SpriteColl) (align zmin id : Nat) (fz : ℚ),
      id ≠ SPR_IMG_QUERY →
      ResizeSprites coll align zmin = none →
      ReadSprite (some coll) id SpriteType.Normal none fz align zmin =
        ReadOutcome.fallback) := by
  refine ⟨?_, ?_, ?_, ?_⟩
  · intro s sp rest hs1 hover id hid fz align zmin
    obtain ⟨h1, h2, h3, h4⟩ := readSprite_overflow s sp rest hs1 hover id fz
      align zmin
    rw [if_neg hid] at h4
    exact ⟨h1, h2, h3, h4⟩
  · intro sp pl pt pr pb h
    unfold PadSingleSprite
    dsimp only
    rw [if_pos h]
  · intro first rest align zmin hlt hpad
    unfold ResizeSprites
    dsimp only
    rw [if_neg hlt]
    dsimp only
    rw [if_neg (by decide : ¬ (true = false))]
    rw [hpad]
  · intro coll align zmin id fz hid hfail
    unfold ReadSprite
    have hns : ¬ (SpriteType.Normal = SpriteType.Font ∧
        (none : Option ℚ) = none) := by
      intro h
      cases h.1
    rw [if_neg hns]
    dsimp only
    rw [if_neg (by intro h; cases h)]
    rw [hfail]
    dsimp only
    rw [if_neg hid]

/-- Witness for C5 amended: a 40000-pixel-wide half-zoom sprite overflows the
upscale and falls back without an abort, and a pad request taking the same
sprite past 65535 pixels of width is rejected by PadSingleSprite. -/
theorem c5_overflow_rejected_no_abort_witness :
    ((ResizeSpriteIn [((1/2 : ℚ), c5Sprite)] (1/2) 1).1 = false ∧
     collFind (ResizeSpriteIn [((1/2 : ℚ), c5Sprite)] (1/2) 1).2 1 = none ∧
     ResizeSprites [((1/2 : ℚ), c5Sprite)] 0 0 = none ∧
     ReadSprite (some [((1/2 : ℚ), c5Sprite)]) 7 SpriteType.Normal none 1 0 0 =
       ReadOutcome.fallback) ∧
    PadSingleSprite c5Sprite 30000 0 0 0 = none :=
  ⟨c5_overflow_rejected_no_abort.1 (1/2) c5Sprite [] (by norm_num)
     (Or.inl (by norm_num [c5Sprite])) 7 (by decide) 1 0 0,
   c5_overflow_rejected_no_abort.2.1 c5Sprite 30000 0 0 0
     (Or.inl (by norm_num [c5Sprite]))⟩

theorem collFind_collSet_self (c : SpriteColl) (k : ℚ) (v : SLSprite) :
    collFind (collSet c k v) k = some v := by
  induction c with
  | nil => exact if_pos rfl
  | cons p rest ih =>
    obtain ⟨k0, v0⟩ := p
    unfold collSet
    by_cases h1 : k = k0
    · rw [if_pos h1]
      exact if_pos rfl
    · rw [if_neg h1]
      by_cases h2 : k > k0
      · rw [if_pos h2]
        exact if_pos rfl
      · rw [if_neg h2]
        unfold collFind
        rw [if_neg h1]
        exact ih

theorem ceil_nat_div_two (w : Nat) :
    Int.ceil ((w : ℚ) / 2) = ((w + 1) / 2 : Nat) := by
  apply le_antisymm
  · rw [Int.ceil_le, div_le_iff₀ (by norm_num : (0:ℚ) < 2)]
    have h : (w : ℤ) ≤ (((w + 1) / 2 : ℕ) : ℤ) * 2 := by omega
    exact_mod_cast h
  · rw [Int.le_ceil_iff, lt_div_iff₀ (by norm_num : (0:ℚ) < 2)]
    have h : ((((w + 1) / 2 : ℕ) : ℤ) - 1) * 2 < (w : ℤ) := by omega
    exact_mod_cast h

theorem scale_cancel (s : ℚ) (hs : s ≠ 0) (w : Nat) :
    (w : ℚ) * s / (s * 2) = (w : ℚ) / 2 := by
  field_simp
  ring

theorem resizeOutDim (s : ℚ) (hs : 0 < s) (w : Nat) :
    (Int.ceil ((w : ℚ) * s / (s * 2))).toNat = (w + 1) / 2 := by
  rw [scale_cancel s (ne_of_gt hs) w, ceil_nat_div_two]
  exact Int.toNat_natCast _

theorem resizeOutRow_length (data : List CommonPixel) :
    ∀ n p ln, (resizeOutRow data p ln n).length = n := by
  intro n
  induction n with
  | zero => intro p ln; rfl
  | succ m ih =>
    intro p ln
    unfold resizeOutRow
    rw [List.length_cons, ih]

theorem resizeOutRow_getD (data : List CommonPixel) :
    ∀ n x p ln, x < n →
      (resizeOutRow data p ln n).getD x default =
        if p + (2 * x + 1) ≠ ln ∧ (data.getD (p + (2 * x + 1)) default).a ≠ 0
          then data.getD (p + (2 * x + 1)) default
          else data.getD (p + 2 * x) default := by
  intro n
  induction n with
  | zero => intro x p ln h; omega
  | succ m ih =>
    intro x p ln h
    cases x with
    | zero =>
      unfold resizeOutRow
      rw [List.getD_cons_zero]
      norm_num
    | succ x =>
      unfold resizeOutRow
      rw [List.getD_cons_succ]
      rw [ih x (p + 2) ln (by omega)]
      have e1 : p + 2 + (2 * x + 1) = p + (2 * (x + 1) + 1) := by ring
      have e2 : p + 2 + 2 * x = p + 2 * (x + 1) := by ring
      rw [e1, e2]

theorem resizeOutRows_getD (data : List CommonPixel) (sw tw : Nat) :
    ∀ r y x p, y < r → x < tw →
      (resizeOutRows data sw tw r p).getD (y * tw + x) default =
        (resizeOutRow data (p + 2 * sw * y) (p + 2 * sw * y + sw) tw).getD
          x default := by
  intro r
  induction r with
  | zero => intro y x p hy hx; omega
  | succ m ih =>
    intro y x p hy hx
    cases y with
    | zero =>
      unfold resizeOutRows
      simp only [Nat.zero_mul, Nat.zero_add, Nat.mul_zero, Nat.add_zero]
      rw [List.getD_append]
      rw [resizeOutRow_length]
      exact hx
    | succ y =>
      unfold resizeOutRows
      have hlen : (resizeOutRow data p (p + sw) tw).length ≤ (y + 1) * tw + x := by
        rw [resizeOutRow_length]
        calc tw ≤ y * tw + tw + x := by omega
          _ = (y + 1) * tw + x := by ring
      rw [List.getD_append_right (resizeOutRow data p (p + sw) tw)
        (resizeOutRows data sw tw m (p + 2 * sw)) default ((y + 1) * tw + x) hlen]
      rw [resizeOutRow_length]
      have e0 : (y + 1) * tw + x - tw = y * tw + x := by
        have : (y + 1) * tw = y * tw + tw := by ring
        omega
      rw [e0]
      rw [ih y x (p + 2 * sw) (by omega) hx]
      have e1 : p + 2 * sw + 2 * sw * y = p + 2 * sw * (y + 1) := by ring
      rw [e1]

/-- C6: the downscaled level produced by ResizeSpriteOut takes, for every
target pixel (x, y), the second pixel of the examined horizontal source pair
(coordinates (2x+1, 2y)) when it exists and has nonzero alpha, and the first
pixel (2x, 2y) otherwise. -/
theorem c6_resize_out_pixel_rule (coll : SpriteColl) (scale : ℚ)
    (source : SLSprite) (hs : 0 < scale)
    (hfind : collFind coll (scale * 2) = some source) :
    (ResizeSpriteOut coll scale).1 = true ∧
    ∃ target, collFind (ResizeSpriteOut coll scale).2 scale = some target ∧
      target.width = (source.width + 1) / 2 ∧
      target.height = (source.height + 1) / 2 ∧
      ∀ x y, x < target.width → y < target.height →
        target.data.getD (y * target.width + x) default =
          if 2 * x + 1 < source.width ∧
              (source.data.getD (2 * y * source.width + (2 * x + 1)) default).a ≠ 0
            then source.data.getD (2 * y * source.width + (2 * x + 1)) default
            else source.data.getD (2 * y * source.width + 2 * x) default := by
  unfold ResizeSpriteOut
  rw [hfind]
  dsimp only
  refine ⟨rfl, _, collFind_collSet_self _ _ _,
    resizeOutDim scale hs source.width, resizeOutDim scale hs source.height, ?_⟩
  intro x y hx hy
  dsimp only at hx hy ⊢
  have hxw : x < (source.width + 1) / 2 := by
    rw [← resizeOutDim scale hs source.width]
    exact hx
  rw [resizeOutRows_getD source.data source.width _ _ y x 0 hy hx]
  rw [resizeOutRow_getD source.data _ x (0 + 2 * source.width * y)
    (0 + 2 * source.width * y + source.width) hx]
  have e1 : 0 + 2 * source.width * y + (2 * x + 1) =
      2 * y * source.width + (2 * x + 1) := by ring
  have e2 : 0 + 2 * source.width * y + 2 * x = 2 * y * source.width + 2 * x := by
    ring
  have e3 : 0 + 2 * source.width * y + source.width =
      2 * y * source.width + source.width := by ring
  rw [e1, e2, e3]
  have hiff : (2 * y * source.width + (2 * x + 1) ≠
      2 * y * source.width + source.width) ↔ (2 * x + 1 < source.width) := by
    omega
  simp only [hiff]

theorem c6_resize_out_pixel_rule_witness :
    (0 : ℚ) < 1/2 ∧ collFind c6Coll ((1/2 : ℚ) * 2) = some c6Src ∧
    ((ResizeSpriteOut c6Coll (1/2)).1 = true ∧
    ∃ target, collFind (ResizeSpriteOut c6Coll (1/2)).2 (1/2) = some target ∧
      target.width = (c6Src.width + 1) / 2 ∧
      target.height = (c6Src.height + 1) / 2 ∧
      ∀ x y, x < target.width → y < target.height →
        target.data.getD (y * target.width + x) default =
          if 2 * x + 1 < c6Src.width ∧
              (c6Src.data.getD (2 * y * c6Src.width + (2 * x + 1)) default).a ≠ 0
            then c6Src.data.getD (2 * y * c6Src.width + (2 * x + 1)) default
            else c6Src.data.getD (2 * y * c6Src.width + 2 * x) default) :=
  ⟨by norm_num, by norm_num [c6Coll, collFind],
   c6_resize_out_pixel_rule c6Coll (1/2) c6Src (by norm_num)
     (by norm_num [c6Coll, collFind])⟩
